import Mathlib

/-!
# SM9 protocol layer (GmSSL `src/sm9_z256_lib.c`): shallow embedding

This file embeds the SM9 protocol layer of `sm9_z256_lib.c` in Lean 4 and
settles the specification claims about it.

The protocol layer calls an external primitive layer (the 256-bit pairing
curve, SM3, the KDF, HMAC and the ASN.1 codec).  Those primitives are not
part of the source file; following the specification's interface contract
(spec. section 6) they are modelled as follows:

* the pairing/curve/SM3/KDF/HMAC primitives become fields of the
  `SM9Prims` structure: the protocol functions are parameterised over any
  implementation of that interface, exactly as the C file is linked
  against an arbitrary conforming primitive layer;
* the ASN.1 DER primitives (`asn1_*`) are deterministic byte-level codecs
  fixed by DER, so they are modelled concretely below.

Bytes are `Nat`s (< 256 in every reachable value), byte buffers are
`List Nat`.  The C functions' `int` success/failure protocol becomes
`Option`/`Except`: `none`/`.error` for the non-`1` returns.  The secure
random draws (`sm9_z256_fn_rand`) are modelled by an explicit list of draw
outcomes handed to each randomized function; an exhausted list models a
failing random source.
-/

/-! ## ASN.1 DER model

Modelled from the spec: the ASN.1 contract of section 6 (two-pass DER
emission, primitive encoders/decoders for INTEGER, OCTET STRING,
BIT STRING wrapping whole-octet payloads, SEQUENCE header, and a
`length_is_zero` tail assertion); the `asn1_*` functions themselves are
outside `src/`.  Definite DER lengths up to 65535 are supported, which
covers every length the SM9 layer can emit. -/

/-- DER definite-length encoding (short form, or long form `0x81`/`0x82`). -/
def asn1_length_to_der (n : Nat) : List Nat :=
  if n < 128 then [n]
  else if n < 256 then [129, n]
  else [130, n / 256, n % 256]

/-- DER definite-length decoding, enforcing minimality. -/
def asn1_length_from_der : List Nat → Option (Nat × List Nat)
  | [] => none
  | b :: r =>
    if b < 128 then some (b, r)
    else if b = 129 then
      match r with
      | b1 :: r' => if 128 ≤ b1 then some (b1, r') else none
      | [] => none
    else if b = 130 then
      match r with
      | b1 :: b2 :: r' =>
        if 256 ≤ b1 * 256 + b2 then some (b1 * 256 + b2, r') else none
      | _ => none
    else none

/-- Emit one DER TLV. -/
def asn1_tlv_to_der (tag : Nat) (content : List Nat) : List Nat :=
  tag :: asn1_length_to_der content.length ++ content

/-- Parse one DER TLV with the given tag, returning content and remainder. -/
def asn1_tlv_from_der (tag : Nat) : List Nat → Option (List Nat × List Nat)
  | [] => none
  | t :: r =>
    if t = tag then
      match asn1_length_from_der r with
      | some (len, r') =>
        if len ≤ r'.length then some (r'.take len, r'.drop len) else none
      | none => none
    else none

def asn1_octet_string_to_der (s : List Nat) : List Nat := asn1_tlv_to_der 4 s

def asn1_octet_string_from_der (input : List Nat) :
    Option (List Nat × List Nat) :=
  asn1_tlv_from_der 4 input

/-- BIT STRING holding whole octets: one leading unused-bits byte `0x00`. -/
def asn1_bit_octets_to_der (s : List Nat) : List Nat :=
  asn1_tlv_to_der 3 (0 :: s)

def asn1_bit_octets_from_der (input : List Nat) :
    Option (List Nat × List Nat) :=
  match asn1_tlv_from_der 3 input with
  | some (c, rest) =>
    match c with
    | 0 :: payload => some (payload, rest)
    | _ => none
  | none => none

/-- Non-negative INTEGER, minimal big-endian content octets. -/
def asn1_int_to_der (n : Nat) : List Nat :=
  if n < 128 then asn1_tlv_to_der 2 [n]
  else if n < 256 then asn1_tlv_to_der 2 [0, n]
  else asn1_tlv_to_der 2 [0, n / 256, n % 256]

/-- Non-negative INTEGER decoding, enforcing minimality. -/
def asn1_int_from_der (input : List Nat) : Option (Nat × List Nat) :=
  match asn1_tlv_from_der 2 input with
  | some (c, rest) =>
    match c with
    | [] => none
    | [b] => if b < 128 then some (b, rest) else none
    | b :: b2 :: _ =>
      if b = 0 ∧ 128 ≤ b2 ∨ 0 < b ∧ b < 128 then
        some (c.foldl (fun a d => a * 256 + d) 0, rest)
      else none
  | none => none

def asn1_sequence_to_der (content : List Nat) : List Nat :=
  asn1_tlv_to_der 48 content

def asn1_sequence_from_der (input : List Nat) :
    Option (List Nat × List Nat) :=
  asn1_tlv_from_der 48 input

/-! ## The primitive-layer interface

The operations of the external primitive layer used by `sm9_z256_lib.c`,
as fields of a structure (spec. section 6 fixes the contract; the
implementations live outside `src/`). -/

structure SM9Prims where
  /-- scalars modulo the group order N -/
  Fn : Type
  /-- points of the G1 curve group -/
  G1 : Type
  /-- points of the G2 twist group -/
  G2 : Type
  /-- Fp12 elements (pairing outputs) -/
  GT : Type
  /-- SM3 hash state (`SM3_CTX`) -/
  Ctx : Type
  fn_add : Fn → Fn → Fn
  fn_sub : Fn → Fn → Fn
  fn_mul : Fn → Fn → Fn
  fn_inv : Fn → Fn
  fn_is_zero : Fn → Bool
  fn_equ : Fn → Fn → Bool
  /-- `sm9_z256_fn_from_hash`: reduce a 64-byte hash into `[1, N-1]` -/
  fn_from_hash : List Nat → Fn
  /-- `sm9_z256_fn_to_bytes`: 32-byte big-endian encoding -/
  fn_to_bytes : Fn → List Nat
  /-- `sm9_z256_fn_from_bytes`: may reject (returns `!= 1`) -/
  fn_from_bytes : List Nat → Option Fn
  /-- `sm9_z256_hash1`: identity bytes and a `hid` byte to a scalar -/
  hash1 : List Nat → Nat → Fn
  /-- `sm9_z256_from_hex` on a 64-digit hex literal -/
  z256_from_hex : String → Fn
  point_mul : Fn → G1 → G1
  point_add : G1 → G1 → G1
  point_is_on_curve : G1 → Bool
  /-- `sm9_z256_point_to_uncompressed_octets`: 65 bytes `0x04 || X || Y` -/
  point_to_octets : G1 → List Nat
  /-- `sm9_z256_point_from_uncompressed_octets`: may reject -/
  point_from_octets : List Nat → Option G1
  /-- `sm9_z256_twist_point_mul_generator` -/
  twist_mul_gen : Fn → G2
  /-- `sm9_z256_twist_point_add_full` -/
  twist_add : G2 → G2 → G2
  /-- `sm9_z256_pairing`: argument order `(G2 point, G1 point)` -/
  pairing : G2 → G1 → GT
  fp12_pow : GT → Fn → GT
  fp12_mul : GT → GT → GT
  /-- `sm9_z256_fp12_to_bytes`: 384-byte serialization -/
  fp12_to_bytes : GT → List Nat
  /-- the fixed G1 generator `SM9_Z256_MONT_P1` -/
  P1 : G1
  /-- the fixed G2 generator `SM9_Z256_MONT_P2` -/
  P2 : G2
  sm3_init : Ctx
  sm3_update : Ctx → List Nat → Ctx
  /-- `sm3_finish(&ctx, dgst)`: the digest, and the state the finalization
  leaves behind in `ctx` (the C call mutates the context). -/
  sm3_finish : Ctx → List Nat × Ctx
  /-- `sm3_kdf_init(klen)` / updates / finish, collapsed to one map from
  the concatenated absorbed bytes and the target length. -/
  kdf : List Nat → Nat → List Nat
  /-- HMAC-SM3 with the given key over the given data, 32-byte tag. -/
  sm3_hmac : List Nat → List Nat → List Nat

/-! ## Protocol-layer data (from `sm9_z256.h` shapes used by the source) -/

/-- `SM9_SIGNATURE`. -/
structure SM9Signature (P : SM9Prims) where
  h : P.Fn
  S : P.G1

instance (P : SM9Prims) [DecidableEq P.Fn] [DecidableEq P.G1] :
    DecidableEq (SM9Signature P) := fun a b =>
  decidable_of_iff (a.h = b.h ∧ a.S = b.S)
    (by cases a; cases b; simp)

/-- `SM9_SIGN_MASTER_KEY`, public part (`sm9_do_verify` reads only `Ppubs`). -/
structure SM9SignMasterKey (P : SM9Prims) where
  Ppubs : P.G2

/-- `SM9_SIGN_KEY` (`sm9_do_sign` reads `Ppubs` and `ds`). -/
structure SM9SignKey (P : SM9Prims) where
  Ppubs : P.G2
  ds : P.G1

/-- `SM9_ENC_MASTER_KEY`, public part. -/
structure SM9EncMasterKey (P : SM9Prims) where
  Ppube : P.G1

/-- `SM9_ENC_KEY`. -/
structure SM9EncKey (P : SM9Prims) where
  de : P.G2

/-- `SM9_EXCH_MASTER_KEY`, public part. -/
structure SM9ExchMasterKey (P : SM9Prims) where
  Ppube : P.G1

/-- `SM9_EXCH_KEY`. -/
structure SM9ExchKey (P : SM9Prims) where
  de : P.G2

/-- `SM9_HID_SIGN = 0x01` (spec. section 3; the header is outside `src/`). -/
def SM9_HID_SIGN : Nat := 1

/-- `SM9_HID_EXCH = 0x02` (spec. section 3). -/
def SM9_HID_EXCH : Nat := 2

/-- `SM9_HID_ENC = 0x03` (spec. section 3). -/
def SM9_HID_ENC : Nat := 3

/-- `SM9_HASH2_PREFIX = 0x02` (spec. section 3). -/
def sm9Hash2PrefixByte : Nat := 2

/-- `SM9_MAX_PLAINTEXT_SIZE` (value from the GmSSL header, outside `src/`). -/
def SM9_MAX_PLAINTEXT_SIZE : Nat := 255

/-- `SM3_HMAC_SIZE`. -/
def SM3_HMAC_SIZE : Nat := 32

/-- the 4-byte counter `{0,0,0,1}` used by the H2 expansion -/
def sm9ct1 : List Nat := [0, 0, 0, 1]

/-- the 4-byte counter `{0,0,0,2}` used by the H2 expansion -/
def sm9ct2 : List Nat := [0, 0, 0, 2]

/-- `gmssl_memxor(out, a, b, len)` with `len = b.length`. -/
def gmssl_memxor (a b : List Nat) : List Nat :=
  List.zipWith (fun x y => Nat.xor x y) a b

/-- `mem_is_zero`. -/
def mem_is_zero (l : List Nat) : Bool := l.all (fun b => b == 0)

/-! ## Signature codec (`sm9_signature_to_der` / `sm9_signature_from_der`) -/

/-- `sm9_signature_to_der`: SEQUENCE of the 32-byte `h` OCTET STRING and
the 65-byte `S` BIT STRING. -/
def sm9_signature_to_der (P : SM9Prims) (sig : SM9Signature P) : List Nat :=
  asn1_sequence_to_der
    (asn1_octet_string_to_der (P.fn_to_bytes sig.h) ++
      asn1_bit_octets_to_der (P.point_to_octets sig.S))

/-- `sm9_signature_from_der`.  Returns the decoded signature and the bytes
remaining after the SEQUENCE (the C function advances `*in`/`*inlen`). -/
def sm9_signature_from_der (P : SM9Prims) (input : List Nat) :
    Option (SM9Signature P × List Nat) :=
  match asn1_sequence_from_der input with
  | none => none
  | some (d, rest) =>
    match asn1_octet_string_from_der d with
    | none => none
    | some (h, d1) =>
      match asn1_bit_octets_from_der d1 with
      | none => none
      | some (s, d2) =>
        if h.length = 32 ∧ s.length = 65 ∧ d2 = [] then
          match P.fn_from_bytes h, P.point_from_octets s with
          | some hv, some sv => some (⟨hv, sv⟩, rest)
          | _, _ => none
        else none

/-! ## Signer (`sm9_sign_init` / `sm9_sign_update` / `sm9_do_sign`) -/

/-- `sm9_sign_init`: seed an SM3 state with the one-byte `0x02` domain
separator (`sm9_verify_init` is identical). -/
def sm9_sign_init (P : SM9Prims) : P.Ctx :=
  P.sm3_update P.sm3_init [sm9Hash2PrefixByte]

/-- `sm9_sign_update` / `sm9_verify_update`. -/
def sm9_sign_update (P : SM9Prims) (ctx : P.Ctx) (data : List Nat) : P.Ctx :=
  P.sm3_update ctx data

/-- One pass of the `sm9_do_sign` loop body (steps A3-A5 on the current
`g` and `ctx`): returns `(g', ctx', h, l)` where `g'` is the value the C
code leaves in `g` (it computes `fp12_pow(g, g, r)` in place), `ctx'` the
state `sm3_finish` leaves in `ctx`, `h` the H2 output and `l = r - h`. -/
def sm9_sign_iteration (P : SM9Prims) (g : P.GT) (ctx : P.Ctx) (r : P.Fn) :
    P.GT × P.Ctx × P.Fn × P.Fn :=
  let g' := P.fp12_pow g r
  let wbuf := P.fp12_to_bytes g'
  let ctx1 := P.sm3_update ctx wbuf
  let tmp := ctx1
  let ctx2 := P.sm3_update ctx1 sm9ct1
  let fin1 := P.sm3_finish ctx2
  let tmp2 := P.sm3_update tmp sm9ct2
  let fin2 := P.sm3_finish tmp2
  let h := P.fn_from_hash (fin1.1 ++ fin2.1)
  (g', fin1.2, h, P.fn_sub r h)

/-- The `do { ... } while (l == 0)` loop of `sm9_do_sign`, with the draw
outcomes made explicit.  The C code carries `g` and `ctx` across
iterations (both are overwritten in place by the loop body). -/
def sm9_do_sign_loop (P : SM9Prims) (ds : P.G1) :
    P.GT → P.Ctx → List P.Fn → Option (SM9Signature P)
  | _, _, [] => none
  | g, ctx, r :: rs =>
    let step := sm9_sign_iteration P g ctx r
    if P.fn_is_zero step.2.2.2 then
      sm9_do_sign_loop P ds step.1 step.2.1 rs
    else
      some ⟨step.2.2.1, P.point_mul step.2.2.2 ds⟩

/-- `sm9_do_sign`: step A1 computes `g = e(Ppubs, P1)` once, then the
rejection-resample loop runs on the function-local copy of the message
context. -/
def sm9_do_sign (P : SM9Prims) (key : SM9SignKey P) (sm3_ctx : P.Ctx)
    (draws : List P.Fn) : Option (SM9Signature P) :=
  sm9_do_sign_loop P key.ds (P.pairing key.Ppubs P.P1) sm3_ctx draws

/-! ## Verifier (`sm9_do_verify`) -/

/-- `sm9_do_verify`: returns `1` (accept) or `0` (reject).  The comments
`B1`/`B2` in the source announce a range check on `h` and an on-curve
check on `S`, but no code implements them; the embedding is faithful to
the code, which goes straight to the pairing computation. -/
def sm9_do_verify (P : SM9Prims) (mpk : SM9SignMasterKey P)
    (id : List Nat) (sm3_ctx : P.Ctx) (sig : SM9Signature P) : Nat :=
  let g := P.pairing mpk.Ppubs P.P1
  let t := P.fp12_pow g sig.h
  let h1 := P.hash1 id SM9_HID_SIGN
  let pt := P.twist_add (P.twist_mul_gen h1) mpk.Ppubs
  let u := P.pairing pt sig.S
  let w := P.fp12_mul u t
  let wbuf := P.fp12_to_bytes w
  let ctx1 := P.sm3_update sm3_ctx wbuf
  let tmp := ctx1
  let ctx2 := P.sm3_update ctx1 sm9ct1
  let fin1 := P.sm3_finish ctx2
  let tmp2 := P.sm3_update tmp sm9ct2
  let fin2 := P.sm3_finish tmp2
  let h2 := P.fn_from_hash (fin1.1 ++ fin2.1)
  if P.fn_equ h2 sig.h then 1 else 0

/-! ## KEM (`sm9_kem_encrypt` / `sm9_kem_decrypt`) -/

/-- The `do { ... } while (K == 0)` loop of `sm9_kem_encrypt`.  The C code
keeps the loop state in `C`: step A1 stores `Q` there and step A3
computes `point_mul(C, r, C)` in place, so the point carried into a
restarted iteration is the previous `C1`, not `Q`. -/
def sm9_kem_encrypt_loop (P : SM9Prims) (mpk : SM9EncMasterKey P)
    (id : List Nat) (klen : Nat) :
    P.G1 → List P.Fn → Option (List Nat × P.G1)
  | _, [] => none
  | c, r :: rs =>
    let c' := P.point_mul r c
    let cbuf := P.point_to_octets c'
    let g := P.pairing P.P2 mpk.Ppube
    let w := P.fp12_pow g r
    let wbuf := P.fp12_to_bytes w
    let kbuf := P.kdf (cbuf.drop 1 ++ wbuf ++ id) klen
    if mem_is_zero kbuf then sm9_kem_encrypt_loop P mpk id klen c' rs
    else some (kbuf, c')

/-- `sm9_kem_encrypt`: step A1 computes `Q = [H1(ID||hid)]P1 + Ppube`
into `C`, then the loop runs. -/
def sm9_kem_encrypt (P : SM9Prims) (mpk : SM9EncMasterKey P)
    (id : List Nat) (klen : Nat) (draws : List P.Fn) :
    Option (List Nat × P.G1) :=
  let q := P.point_add (P.point_mul (P.hash1 id SM9_HID_ENC) P.P1) mpk.Ppube
  sm9_kem_encrypt_loop P mpk id klen q draws

/-- `sm9_kem_decrypt`: `w = e(de, C)`, `K = KDF(C_xy || w || ID, klen)`,
failing when `K` is all-zero.  (The comment `B1: check C in G1` in the
source has no corresponding code.) -/
def sm9_kem_decrypt (P : SM9Prims) (key : SM9EncKey P) (id : List Nat)
    (c : P.G1) (klen : Nat) : Option (List Nat) :=
  let cbuf := P.point_to_octets c
  let w := P.pairing key.de c
  let wbuf := P.fp12_to_bytes w
  let kbuf := P.kdf (cbuf.drop 1 ++ wbuf ++ id) klen
  if mem_is_zero kbuf then none else some kbuf

/-! ## Encryption envelope (`sm9_do_encrypt` / `sm9_do_decrypt`) -/

/-- `sm9_do_encrypt`: the KEM is invoked with
`klen = sizeof(K) = SM9_MAX_PLAINTEXT_SIZE + 32` (the size of the local
array `K`), the XOR stream is the first `inlen` bytes of `K` and the
HMAC key is the 32 bytes of `K` at offset `inlen`. -/
def sm9_do_encrypt (P : SM9Prims) (mpk : SM9EncMasterKey P)
    (id : List Nat) (input : List Nat) (draws : List P.Fn) :
    Option (P.G1 × List Nat × List Nat) :=
  match sm9_kem_encrypt P mpk id (SM9_MAX_PLAINTEXT_SIZE + 32) draws with
  | none => none
  | some (k, c1) =>
    let c2 := gmssl_memxor k input
    let c3 := P.sm3_hmac ((k.drop input.length).take SM3_HMAC_SIZE) c2
    some (c1, c2, c3)

/-- `sm9_do_decrypt`: rejects `c2len > SM9_MAX_PLAINTEXT_SIZE`, runs KEM
decapsulation with `klen = sizeof(k) = SM9_MAX_PLAINTEXT_SIZE + 32`,
recomputes the HMAC-SM3 tag with the 32-byte key at offset `c2len` and
compares it with `c3` before XOR-ing the plaintext out. -/
def sm9_do_decrypt (P : SM9Prims) (key : SM9EncKey P) (id : List Nat)
    (c1 : P.G1) (c2 : List Nat) (c3 : List Nat) : Option (List Nat) :=
  if c2.length > SM9_MAX_PLAINTEXT_SIZE then none
  else
    match sm9_kem_decrypt P key id c1 (SM9_MAX_PLAINTEXT_SIZE + 32) with
    | none => none
    | some k =>
      let mac := P.sm3_hmac ((k.drop c2.length).take SM3_HMAC_SIZE) c2
      if c3 = mac then some (gmssl_memxor k c2) else none

/-- The encryption envelope as the spec's words describe it (section 4.5):
`Run KEM Encap with klen = mlen + 32`, `K = K1 || K2` with `|K1| = mlen`
and `|K2| = 32`.  Second definition for the refinement comparison with
`sm9_do_encrypt` (which passes a fixed `klen`). -/
def sm9_do_encrypt_specklen (P : SM9Prims) (mpk : SM9EncMasterKey P)
    (id : List Nat) (input : List Nat) (draws : List P.Fn) :
    Option (P.G1 × List Nat × List Nat) :=
  match sm9_kem_encrypt P mpk id (input.length + 32) draws with
  | none => none
  | some (k, c1) =>
    let c2 := gmssl_memxor k input
    let c3 := P.sm3_hmac ((k.drop input.length).take SM3_HMAC_SIZE) c2
    some (c1, c2, c3)

/-- The decryption envelope as the spec's words describe it (section 4.5):
`Run KEM Decap with klen = c2len + 32`.  Second definition for the
refinement comparison with `sm9_do_decrypt`. -/
def sm9_do_decrypt_specklen (P : SM9Prims) (key : SM9EncKey P)
    (id : List Nat) (c1 : P.G1) (c2 : List Nat) (c3 : List Nat) :
    Option (List Nat) :=
  if c2.length > SM9_MAX_PLAINTEXT_SIZE then none
  else
    match sm9_kem_decrypt P key id c1 (c2.length + 32) with
    | none => none
    | some k =>
      let mac := P.sm3_hmac ((k.drop c2.length).take SM3_HMAC_SIZE) c2
      if c3 = mac then some (gmssl_memxor k c2) else none

/-! ## Ciphertext codec (`sm9_ciphertext_to_der` / `sm9_ciphertext_from_der`) -/

/-- `SM9_ENC_TYPE_XOR`. -/
def SM9_ENC_TYPE_XOR : Nat := 0

/-- `sm9_ciphertext_to_der`: SEQUENCE of `EnType = 0`, the 65-byte `C1`
BIT STRING, the 32-byte `C3` OCTET STRING and the `C2` OCTET STRING. -/
def sm9_ciphertext_to_der (P : SM9Prims) (c1 : P.G1) (c2 : List Nat)
    (c3 : List Nat) : List Nat :=
  asn1_sequence_to_der
    (asn1_int_to_der SM9_ENC_TYPE_XOR ++
      asn1_bit_octets_to_der (P.point_to_octets c1) ++
      asn1_octet_string_to_der c3 ++
      asn1_octet_string_to_der c2)

/-- `sm9_ciphertext_from_der`.  Parses the four fields, requires an empty
tail inside the SEQUENCE, then `EnType == 0`, `|C1| == 65`,
`|C3| == SM3_HMAC_SIZE`, and finally decodes the `C1` point.  Returns
`((C1, c2, c3), rest)` with `rest` the bytes after the SEQUENCE. -/
def sm9_ciphertext_from_der (P : SM9Prims) (input : List Nat) :
    Option ((P.G1 × List Nat × List Nat) × List Nat) :=
  match asn1_sequence_from_der input with
  | none => none
  | some (d, rest) =>
    match asn1_int_from_der d with
    | none => none
    | some (en_type, d1) =>
      match asn1_bit_octets_from_der d1 with
      | none => none
      | some (c1, d2) =>
        match asn1_octet_string_from_der d2 with
        | none => none
        | some (c3, d3) =>
          match asn1_octet_string_from_der d3 with
          | none => none
          | some (c2, d4) =>
            if d4 = [] then
              if en_type = SM9_ENC_TYPE_XOR then
                if c1.length = 65 then
                  if c3.length = SM3_HMAC_SIZE then
                    match P.point_from_octets c1 with
                    | some c1v => some ((c1v, c2, c3), rest)
                    | none => none
                  else none
                else none
              else none
            else none

/-! ## Public encryption API (`sm9_encrypt` / `sm9_decrypt`) -/

/-- `sm9_encrypt`: bounds the plaintext by `SM9_MAX_PLAINTEXT_SIZE`, runs
the envelope, DER-encodes the result. -/
def sm9_encrypt (P : SM9Prims) (mpk : SM9EncMasterKey P) (id : List Nat)
    (input : List Nat) (draws : List P.Fn) : Option (List Nat) :=
  if input.length > SM9_MAX_PLAINTEXT_SIZE then none
  else
    match sm9_do_encrypt P mpk id input draws with
    | none => none
    | some (c1, c2, c3) => some (sm9_ciphertext_to_der P c1 c2 c3)

/-- `sm9_decrypt`.  `outNull` models calling with `out == NULL`: in that
case the function returns success with the parsed `C2` length as soon as
the DER ciphertext parses with nothing after the SEQUENCE, never calling
`sm9_do_decrypt`.  The result pairs `*outlen` with the plaintext
(`none` when only the length query was served). -/
def sm9_decrypt (P : SM9Prims) (key : SM9EncKey P) (id : List Nat)
    (input : List Nat) (outNull : Bool) :
    Option (Nat × Option (List Nat)) :=
  match sm9_ciphertext_from_der P input with
  | none => none
  | some ((c1, c2, c3), rest) =>
    if rest = [] then
      if outNull then some (c2.length, none)
      else
        match sm9_do_decrypt P key id c1 c2 c3 with
        | none => none
        | some m => some (c2.length, some m)
    else none

/-! ## Key exchange (`sm9_exch_step_1A` / `sm9_exch_step_1B` / `sm9_exch_step_2A`) -/

/-- The hardcoded hex literal the source feeds to `sm9_z256_from_hex`
right after the step-1A random draw (`// Only for testing`, live code). -/
def sm9ExchTestHexA : String :=
  "00005879DD1D51E175946F23B1B41E93BA31C584AE59A426EC1046A4D03B06C8"

/-- The hardcoded hex literal the source feeds to `sm9_z256_from_hex`
right after the step-1B random draw (`// Only for testing`, live code). -/
def sm9ExchTestHexB : String :=
  "00018B98C44BEF9F8537FB7D071B2C928B3BC65BD3D69E1EEE213564905634FE"

/-- `sm9_exch_step_1A`: `Q = [H1(IDB||hid)]P1 + Ppube`, a random draw
into `rA`, then — exactly as the source does — `rA` is overwritten by
`sm9_z256_from_hex(rA, "00005879...")`, and `RA = [rA]Q`.  Returns
`(RA, rA)` (the caller keeps `rA` secret). -/
def sm9_exch_step_1A (P : SM9Prims) (mpk : SM9ExchMasterKey P)
    (idB : List Nat) (draw : P.Fn) : P.G1 × P.Fn :=
  let q := P.point_add (P.point_mul (P.hash1 idB SM9_HID_EXCH) P.P1) mpk.Ppube
  let rA := draw
  let rA := P.z256_from_hex sm9ExchTestHexA
  (P.point_mul rA q, rA)

/-- The `do { ... } while (SK == 0)` loop of `sm9_exch_step_1B`.  As in
the KEM, the C code keeps the loop point in `RB` (`point_mul(RB, rB, RB)`
in place), so a restarted iteration multiplies the previous `RB`.  Each
iteration overwrites the drawn `rB` with the hardcoded test constant. -/
def sm9_exch_step_1B_loop (P : SM9Prims) (mpk : SM9ExchMasterKey P)
    (idA idB : List Nat) (key : SM9ExchKey P) (ra : P.G1) (klen : Nat) :
    P.G1 → List P.Fn → Option (P.G1 × List Nat)
  | _, [] => none
  | rb, d :: ds =>
    let rB := d
    let rB := P.z256_from_hex sm9ExchTestHexB
    let rb' := P.point_mul rB rb
    if P.point_is_on_curve ra then
      let g1 := P.pairing key.de ra
      let g2 := P.fp12_pow (P.pairing P.P2 mpk.Ppube) rB
      let g3 := P.fp12_pow g1 rB
      let ta := P.point_to_octets ra
      let tb := P.point_to_octets rb'
      let sk := P.kdf (idA ++ idB ++ ta.drop 1 ++ tb.drop 1 ++
        P.fp12_to_bytes g1 ++ P.fp12_to_bytes g2 ++ P.fp12_to_bytes g3) klen
      if mem_is_zero sk then
        sm9_exch_step_1B_loop P mpk idA idB key ra klen rb' ds
      else some (rb', sk)
    else none

/-- `sm9_exch_step_1B`: `Q = [H1(IDA||hid)]P1 + Ppube` into `RB`, then
the loop. -/
def sm9_exch_step_1B (P : SM9Prims) (mpk : SM9ExchMasterKey P)
    (idA idB : List Nat) (key : SM9ExchKey P) (ra : P.G1) (klen : Nat)
    (draws : List P.Fn) : Option (P.G1 × List Nat) :=
  let q := P.point_add (P.point_mul (P.hash1 idA SM9_HID_EXCH) P.P1) mpk.Ppube
  sm9_exch_step_1B_loop P mpk idA idB key ra klen q draws

/-- Outcomes of `sm9_exch_step_2A` in the fuel model: `peerPointInvalid`
is the `!sm9_z256_point_is_on_curve(RB)` error return; `loopLimit` marks
that the `do { ... } while (SK == 0)` loop was still running when the
iteration budget ran out. -/
inductive SM9ExchErr where
  | peerPointInvalid : SM9ExchErr
  | loopLimit : SM9ExchErr
deriving DecidableEq

/-- `sm9_exch_step_2A`, with the `do { ... } while (SK == 0)` loop run
under an explicit iteration budget.  Every quantity inside the loop is
recomputed from the same fixed inputs `(rA, RA, RB, ids, keys)`: the
body has no fresh randomness, so each iteration repeats the last one. -/
def sm9_exch_step_2A (P : SM9Prims) (mpk : SM9ExchMasterKey P)
    (idA idB : List Nat) (key : SM9ExchKey P) (rA : P.Fn)
    (ra rb : P.G1) (klen : Nat) : Nat → Except SM9ExchErr (List Nat)
  | 0 => .error .loopLimit
  | fuel + 1 =>
    if P.point_is_on_curve rb then
      let g1 := P.fp12_pow (P.pairing P.P2 mpk.Ppube) rA
      let g2 := P.pairing key.de rb
      let g3 := P.fp12_pow g2 rA
      let ta := P.point_to_octets ra
      let tb := P.point_to_octets rb
      let sk := P.kdf (idA ++ idB ++ ta.drop 1 ++ tb.drop 1 ++
        P.fp12_to_bytes g1 ++ P.fp12_to_bytes g2 ++ P.fp12_to_bytes g3) klen
      if mem_is_zero sk then
        sm9_exch_step_2A P mpk idA idB key rA ra rb klen fuel
      else .ok sk
    else .error .peerPointInvalid

/-! ## KGC key derivation

Modelled from the spec: the Key Generation Center routines that mint
`SignKey` and `EncKey` from master keys and identities are outside the
protocol layer (spec. section 1 lists them as external collaborators);
the formulas are the GM/T 0044 derivations the spec's round-trip
properties presuppose: `ds = [ks / (H1(ID||hid) + ks)] P1` with
`Ppubs = [ks] P2`, and `de = [ke / (H1(ID||hid) + ke)] P2` with
`Ppube = [ke] P1`. -/

/-- Modelled from the spec: KGC signing-key derivation (see section
comment). -/
def sm9_kgc_derive_sign (P : SM9Prims) (ks : P.Fn) (id : List Nat) :
    SM9SignKey P :=
  let h1 := P.hash1 id SM9_HID_SIGN
  let t := P.fn_mul ks (P.fn_inv (P.fn_add h1 ks))
  { Ppubs := P.twist_mul_gen ks, ds := P.point_mul t P.P1 }

/-- Modelled from the spec: KGC encryption-key derivation (see section
comment). -/
def sm9_kgc_derive_enc (P : SM9Prims) (ke : P.Fn) (id : List Nat) :
    SM9EncKey P :=
  let h1 := P.hash1 id SM9_HID_ENC
  let t := P.fn_mul ke (P.fn_inv (P.fn_add h1 ke))
  { de := P.twist_mul_gen t }

/-! ## A small executable primitive instance

A concrete instance of the primitive interface over the exponent model of
a pairing group of prime order 5: a G1/G2/GT element is represented by
its discrete logarithm in `ZMod 5` (so `point_mul`/`fp12_pow` are field
multiplications, `fp12_mul` is addition of exponents and the pairing is
the product of the two logarithms — a bilinear map).  Hashing mixes the
absorbed bytes with an accumulator fold.  The instance is used to run the
embedded protocol functions on concrete inputs. -/

/-- Byte-mixing fold backing the toy hash functions. -/
def sm9mix (l : List Nat) : Nat :=
  l.foldl (fun a b => (a * 31 + b) % 251) 7

/-- Toy SM3 digest of an absorbed byte stream. -/
def toyDigest (s : List Nat) : List Nat := [sm9mix s]

/-- Toy KDF: `klen` bytes derived from the mixed input. -/
def toyKdf (z : List Nat) (klen : Nat) : List Nat :=
  (List.range klen).map (fun i => (sm9mix z + i) % 256)

/-- Toy primitive layer over the order-5 exponent model. -/
@[reducible] def toyPrims : SM9Prims where
  Fn := ZMod 5
  G1 := ZMod 5
  G2 := ZMod 5
  GT := ZMod 5
  Ctx := List Nat
  fn_add := fun a b => a + b
  fn_sub := fun a b => a - b
  fn_mul := fun a b => a * b
  fn_inv := fun a => a * a * a
  fn_is_zero := fun a => decide (a = 0)
  fn_equ := fun a b => decide (a = b)
  fn_from_hash := fun l => (sm9mix l : ZMod 5)
  fn_to_bytes := fun a => List.replicate 31 0 ++ [a.val]
  fn_from_bytes := fun l =>
    if l.length = 32 ∧ l.take 31 = List.replicate 31 0 ∧ l.getLastD 0 < 5
    then some ((l.getLastD 0 : Nat) : ZMod 5) else none
  hash1 := fun id hid => (sm9mix (id ++ [hid]) : ZMod 5)
  z256_from_hex := fun _ => 3
  point_mul := fun r a => r * a
  point_add := fun a b => a + b
  point_is_on_curve := fun _ => true
  point_to_octets := fun a => 4 :: (List.replicate 63 0 ++ [a.val])
  point_from_octets := fun l =>
    if l.length = 65 ∧ l.headD 0 = 4 ∧ l.tail.take 63 = List.replicate 63 0 ∧
        l.getLastD 0 < 5
    then some ((l.getLastD 0 : Nat) : ZMod 5) else none
  twist_mul_gen := fun r => r
  twist_add := fun a b => a + b
  pairing := fun b a => a * b
  fp12_pow := fun c r => c * r
  fp12_mul := fun c d => c + d
  fp12_to_bytes := fun c => [c.val]
  P1 := 1
  P2 := 1
  sm3_init := []
  sm3_update := fun s l => s ++ l
  sm3_finish := fun s => (toyDigest s, s ++ [255])
  kdf := toyKdf
  sm3_hmac := fun key data =>
    (List.range 32).map (fun i => (sm9mix (key ++ 93 :: data) + i) % 256)

/-- Toy KDF variant for exercising the encapsulation restart: it returns
an all-zero key exactly when the `C1` slot of its input (the first 64
bytes) carries the point with logarithm 2, and behaves like `toyKdf`
otherwise. -/
def toyKdfC2 (z : List Nat) (klen : Nat) : List Nat :=
  if z.take 64 = List.replicate 63 0 ++ [2] then List.replicate klen 0
  else toyKdf z klen

/-- `toyPrims` with the restart-triggering KDF `toyKdfC2`. -/
@[reducible] def toyPrimsC2 : SM9Prims := { toyPrims with kdf := toyKdfC2 }

/-- Toy KDF variant whose byte stream never depends on the requested
length (the prefix property of a counter-mode KDF): on the input whose
`C1` slot carries the point with logarithm 2 the first 33 output bytes
are zero and the rest are one, so a 33-byte request sees an all-zero key
while a longer request does not. -/
def toyKdfC4 (z : List Nat) (klen : Nat) : List Nat :=
  if z.take 64 = List.replicate 63 0 ++ [2] then
    (List.range klen).map (fun i => if i < 33 then 0 else 1)
  else toyKdf z klen

/-- `toyPrims` with the prefix-respecting KDF `toyKdfC4`. -/
@[reducible] def toyPrimsC4 : SM9Prims := { toyPrims with kdf := toyKdfC4 }

/-- `toyPrims` with a KDF that always returns an all-zero key. -/
@[reducible] def toyPrimsZeroKdf : SM9Prims :=
  { toyPrims with kdf := fun _ klen => List.replicate klen 0 }

instance : DecidableEq toyPrims.Fn := inferInstanceAs (DecidableEq (ZMod 5))

instance : DecidableEq toyPrims.G1 := inferInstanceAs (DecidableEq (ZMod 5))

instance : DecidableEq toyPrims.GT := inferInstanceAs (DecidableEq (ZMod 5))

instance : DecidableEq toyPrims.Ctx := inferInstanceAs (DecidableEq (List Nat))

instance : DecidableEq toyPrimsC2.Fn := inferInstanceAs (DecidableEq (ZMod 5))

instance : DecidableEq toyPrimsC2.G1 := inferInstanceAs (DecidableEq (ZMod 5))

instance : DecidableEq toyPrimsC4.Fn := inferInstanceAs (DecidableEq (ZMod 5))

instance : DecidableEq toyPrimsC4.G1 := inferInstanceAs (DecidableEq (ZMod 5))

instance : DecidableEq toyPrimsZeroKdf.Fn := inferInstanceAs (DecidableEq (ZMod 5))

instance : DecidableEq toyPrimsZeroKdf.G1 := inferInstanceAs (DecidableEq (ZMod 5))

/-! ## Concrete test values

Concrete inputs on which the embedded functions are evaluated by the
theorems below. -/

/-- Trailing fields (C1, C3, C2) of a DER ciphertext used to exercise the
decoder. -/
def w8tail : List Nat :=
  asn1_bit_octets_to_der (List.replicate 65 0) ++
    asn1_octet_string_to_der (List.replicate 32 0) ++
    asn1_octet_string_to_der [5]

/-- SEQUENCE content of a well-formed DER ciphertext whose `EnType` is 1
instead of 0. -/
def w8content : List Nat := asn1_int_to_der 1 ++ w8tail

/-- A DER ciphertext with `EnType = 1`. -/
def w8input : List Nat := asn1_sequence_to_der w8content

/-- Message context for the claim-C5 run: prefix `0x02`, then the message
byte `21`. -/
def c5ctx : toyPrims.Ctx :=
  sm9_sign_update toyPrims (sm9_sign_init toyPrims) [21]

/-- the step-A1 pairing value `g = e(Ppubs, P1)` for the claim-C5 key -/
def c5g0 : toyPrims.GT :=
  toyPrims.pairing (sm9_kgc_derive_sign toyPrims 2 [11]).Ppubs toyPrims.P1

/-- first loop pass of the claim-C5 signing run (draw `r = 4`) -/
def c5s1 : toyPrims.GT × toyPrims.Ctx × toyPrims.Fn × toyPrims.Fn :=
  sm9_sign_iteration toyPrims c5g0 c5ctx 4

/-- second loop pass of the claim-C5 signing run (draw `r = 1`), entered
after the first pass restarted on `l = 0` -/
def c5s2 : toyPrims.GT × toyPrims.Ctx × toyPrims.Fn × toyPrims.Fn :=
  sm9_sign_iteration toyPrims c5s1.1 c5s1.2.1 1

/-- the H2 value the claim prescribes for the second pass: absorb the
fresh `w = g^r` into a copy of the input context -/
def c5claimedH : toyPrims.Fn :=
  toyPrims.fn_from_hash
    ((toyPrims.sm3_finish (toyPrims.sm3_update
        (toyPrims.sm3_update c5ctx
          (toyPrims.fp12_to_bytes (toyPrims.fp12_pow c5g0 1))) sm9ct1)).1 ++
     (toyPrims.sm3_finish (toyPrims.sm3_update
        (toyPrims.sm3_update c5ctx
          (toyPrims.fp12_to_bytes (toyPrims.fp12_pow c5g0 1))) sm9ct2)).1)

/-! ## DER codec lemmas -/

/-- Decoding a DER definite length just after encoding recovers it. -/
theorem asn1_length_round (n : Nat) (hn : n < 65536) (r : List Nat) :
    asn1_length_from_der (asn1_length_to_der n ++ r) = some (n, r) := by
  unfold asn1_length_to_der
  by_cases h1 : n < 128
  · simp [h1, asn1_length_from_der]
  · by_cases h2 : n < 256
    · simp [h1, h2, asn1_length_from_der]
    · have hdm : n / 256 * 256 + n % 256 = n := by omega
      simp [h1, h2, asn1_length_from_der, hdm]

/-- Decoding a TLV just after encoding recovers tag-matched content and
leaves the remainder. -/
theorem asn1_tlv_round (tag : Nat) (c : List Nat) (hc : c.length < 65536)
    (r : List Nat) :
    asn1_tlv_from_der tag (asn1_tlv_to_der tag c ++ r) = some (c, r) := by
  unfold asn1_tlv_to_der
  have hsplit :
      (tag :: asn1_length_to_der c.length ++ c) ++ r =
        tag :: (asn1_length_to_der c.length ++ (c ++ r)) := by
    simp
  rw [hsplit]
  unfold asn1_tlv_from_der
  simp only [if_pos rfl, asn1_length_round c.length hc (c ++ r)]
  have hle : c.length ≤ (c ++ r).length := by simp
  simp [hle, List.take_left, List.drop_left]

/-- OCTET STRING round trip. -/
theorem asn1_octet_string_round (s : List Nat) (hs : s.length < 65536)
    (r : List Nat) :
    asn1_octet_string_from_der (asn1_octet_string_to_der s ++ r) =
      some (s, r) := by
  unfold asn1_octet_string_from_der asn1_octet_string_to_der
  exact asn1_tlv_round 4 s hs r

/-- BIT STRING (whole octets) round trip. -/
theorem asn1_bit_octets_round (s : List Nat) (hs : s.length + 1 < 65536)
    (r : List Nat) :
    asn1_bit_octets_from_der (asn1_bit_octets_to_der s ++ r) =
      some (s, r) := by
  unfold asn1_bit_octets_from_der asn1_bit_octets_to_der
  rw [asn1_tlv_round 3 (0 :: s) (by simpa using hs) r]

/-- INTEGER round trip for a single-content-octet value. -/
theorem asn1_int_round_small (n : Nat) (hn : n < 128) (r : List Nat) :
    asn1_int_from_der (asn1_int_to_der n ++ r) = some (n, r) := by
  unfold asn1_int_from_der asn1_int_to_der
  rw [if_pos hn, asn1_tlv_round 2 [n] (by simp) r]
  simp [hn]

/-- SEQUENCE round trip. -/
theorem asn1_sequence_round (c : List Nat) (hc : c.length < 65536)
    (r : List Nat) :
    asn1_sequence_from_der (asn1_sequence_to_der c ++ r) = some (c, r) := by
  unfold asn1_sequence_from_der asn1_sequence_to_der
  exact asn1_tlv_round 48 c hc r

/-- Length of an emitted TLV: header of 2 to 4 bytes plus the content. -/
theorem asn1_tlv_to_der_length (tag : Nat) (c : List Nat) :
    (asn1_tlv_to_der tag c).length ≤ c.length + 4 := by
  unfold asn1_tlv_to_der asn1_length_to_der
  split_ifs <;> simp

/-! ## Claim C8: ciphertext decoder rejection -/

/-- Claim C8: `sm9_ciphertext_from_der` fails on every input whose
`EnType` integer is not 0, whose C1 bit-string payload is not exactly 65
bytes, whose C3 octet string is not exactly 32 bytes, or which has
leftover bytes inside the SEQUENCE (the witness instantiates this at a
concrete ciphertext with `EnType = 1`). -/
theorem claim_C8_ciphertext_decoder_rejects (P : SM9Prims)
    (input d rest d1 d2 d3 d4 : List Nat) (en_type : Nat)
    (c1 c3 c2 : List Nat)
    (hseq : asn1_sequence_from_der input = some (d, rest))
    (hint : asn1_int_from_der d = some (en_type, d1))
    (hbit : asn1_bit_octets_from_der d1 = some (c1, d2))
    (hos3 : asn1_octet_string_from_der d2 = some (c3, d3))
    (hos2 : asn1_octet_string_from_der d3 = some (c2, d4))
    (hbad : en_type ≠ 0 ∨ c1.length ≠ 65 ∨ c3.length ≠ 32 ∨ d4 ≠ []) :
    sm9_ciphertext_from_der P input = none := by
  unfold sm9_ciphertext_from_der
  simp only [hseq, hint, hbit, hos3, hos2]
  rcases hbad with h | h | h | h <;>
    · simp only [SM9_ENC_TYPE_XOR, SM3_HMAC_SIZE]
      split_ifs <;> simp_all

/-- Witness for claim C8 at a concrete DER ciphertext whose `EnType`
integer decodes to 1: every parsing hypothesis holds and the decoder
rejects. -/
theorem claim_C8_witness :
    (asn1_sequence_from_der w8input = some (w8content, [])
      ∧ asn1_int_from_der w8content = some (1, w8tail)
      ∧ asn1_bit_octets_from_der w8tail =
          some (List.replicate 65 0,
            asn1_octet_string_to_der (List.replicate 32 0) ++
              asn1_octet_string_to_der [5])
      ∧ asn1_octet_string_from_der
            (asn1_octet_string_to_der (List.replicate 32 0) ++
              asn1_octet_string_to_der [5]) =
          some (List.replicate 32 0, asn1_octet_string_to_der [5])
      ∧ asn1_octet_string_from_der (asn1_octet_string_to_der [5]) =
          some ([5], [])
      ∧ (1 ≠ 0 ∨ (List.replicate 65 (0 : Nat)).length ≠ 65
          ∨ (List.replicate 32 (0 : Nat)).length ≠ 32
          ∨ ([] : List Nat) ≠ []))
    ∧ sm9_ciphertext_from_der toyPrims w8input = none := by
  refine ⟨⟨by decide, by decide, by decide, by decide, by decide, by decide⟩, ?_⟩
  exact claim_C8_ciphertext_decoder_rejects toyPrims w8input w8content []
    w8tail (asn1_octet_string_to_der (List.replicate 32 0) ++
      asn1_octet_string_to_der [5]) (asn1_octet_string_to_der [5]) []
    1 (List.replicate 65 0) (List.replicate 32 0) [5]
    (by decide) (by decide) (by decide) (by decide) (by decide) (by decide)

/-! ## Claim C9: DER codec round trip -/

/-- Claim C9 (amended): decoding the encoder's output reproduces the
original well-formed Signature or Ciphertext, with any bytes that follow
the top-level SEQUENCE returned to the caller unconsumed (not rejected);
leftover bytes inside the SEQUENCE are rejected by both decoders.  The
well-formedness of the value is expressed by the byte-conversion
round-trip hypotheses on its components. -/
theorem claim_C9_der_codec_roundtrip (P : SM9Prims) (sig : SM9Signature P)
    (c1 : P.G1) (c2 c3 rest : List Nat)
    (hhl : (P.fn_to_bytes sig.h).length = 32)
    (hhr : P.fn_from_bytes (P.fn_to_bytes sig.h) = some sig.h)
    (hSl : (P.point_to_octets sig.S).length = 65)
    (hSr : P.point_from_octets (P.point_to_octets sig.S) = some sig.S)
    (hc1l : (P.point_to_octets c1).length = 65)
    (hc1r : P.point_from_octets (P.point_to_octets c1) = some c1)
    (hc3 : c3.length = 32)
    (hc2 : c2.length ≤ SM9_MAX_PLAINTEXT_SIZE) :
    sm9_signature_from_der P (sm9_signature_to_der P sig ++ rest) =
        some (sig, rest)
    ∧ sm9_ciphertext_from_der P (sm9_ciphertext_to_der P c1 c2 c3 ++ rest) =
        some ((c1, c2, c3), rest)
    ∧ (∀ input d rest2 hb d1 sb d2,
        asn1_sequence_from_der input = some (d, rest2) →
        asn1_octet_string_from_der d = some (hb, d1) →
        asn1_bit_octets_from_der d1 = some (sb, d2) →
        d2 ≠ [] →
        sm9_signature_from_der P input = none)
    ∧ (∀ input d rest2 t d1 c1b d2 c3b d3 c2b d4,
        asn1_sequence_from_der input = some (d, rest2) →
        asn1_int_from_der d = some (t, d1) →
        asn1_bit_octets_from_der d1 = some (c1b, d2) →
        asn1_octet_string_from_der d2 = some (c3b, d3) →
        asn1_octet_string_from_der d3 = some (c2b, d4) →
        d4 ≠ [] →
        sm9_ciphertext_from_der P input = none) := by
  have hos := asn1_tlv_to_der_length 4 (P.fn_to_bytes sig.h)
  have hbit := asn1_tlv_to_der_length 3 (0 :: P.point_to_octets sig.S)
  refine ⟨?_, ?_, ?_, ?_⟩
  · -- signature round trip
    have e1 : asn1_sequence_from_der (sm9_signature_to_der P sig ++ rest) =
        some (asn1_octet_string_to_der (P.fn_to_bytes sig.h) ++
          asn1_bit_octets_to_der (P.point_to_octets sig.S), rest) := by
      unfold sm9_signature_to_der
      apply asn1_sequence_round
      have : (asn1_bit_octets_to_der (P.point_to_octets sig.S)).length ≤ 70 := by
        unfold asn1_bit_octets_to_der
        simpa [hSl] using hbit
      have h2 : (asn1_octet_string_to_der (P.fn_to_bytes sig.h)).length ≤ 36 := by
        unfold asn1_octet_string_to_der
        simpa [hhl] using hos
      simp only [List.length_append]
      omega
    have e2 : asn1_octet_string_from_der
        (asn1_octet_string_to_der (P.fn_to_bytes sig.h) ++
          asn1_bit_octets_to_der (P.point_to_octets sig.S)) =
        some (P.fn_to_bytes sig.h,
          asn1_bit_octets_to_der (P.point_to_octets sig.S)) :=
      asn1_octet_string_round _ (by omega) _
    have e3 : asn1_bit_octets_from_der
        (asn1_bit_octets_to_der (P.point_to_octets sig.S)) =
        some (P.point_to_octets sig.S, []) := by
      have := asn1_bit_octets_round (P.point_to_octets sig.S)
        (by rw [hSl]; omega) []
      simpa using this
    unfold sm9_signature_from_der
    simp [e1, e2, e3, hhl, hSl, hhr, hSr]
  · -- ciphertext round trip
    have hco := asn1_tlv_to_der_length 4 c2
    have e1 : asn1_sequence_from_der (sm9_ciphertext_to_der P c1 c2 c3 ++ rest) =
        some (asn1_int_to_der SM9_ENC_TYPE_XOR ++
          (asn1_bit_octets_to_der (P.point_to_octets c1) ++
            (asn1_octet_string_to_der c3 ++ asn1_octet_string_to_der c2)),
          rest) := by
      unfold sm9_ciphertext_to_der
      rw [List.append_assoc, List.append_assoc]
      apply asn1_sequence_round
      have h1 : (asn1_int_to_der SM9_ENC_TYPE_XOR).length = 3 := by decide
      have h2 : (asn1_bit_octets_to_der (P.point_to_octets c1)).length ≤ 70 := by
        have := asn1_tlv_to_der_length 3 (0 :: P.point_to_octets c1)
        unfold asn1_bit_octets_to_der
        simpa [hc1l] using this
      have h3 : (asn1_octet_string_to_der c3).length ≤ 36 := by
        have := asn1_tlv_to_der_length 4 c3
        unfold asn1_octet_string_to_der
        simpa [hc3] using this
      have h4 : (asn1_octet_string_to_der c2).length ≤ c2.length + 4 := by
        unfold asn1_octet_string_to_der
        exact hco
      have h5 : c2.length ≤ 255 := hc2
      simp only [List.length_append]
      omega
    have e2 : asn1_int_from_der
        (asn1_int_to_der SM9_ENC_TYPE_XOR ++
          (asn1_bit_octets_to_der (P.point_to_octets c1) ++
            (asn1_octet_string_to_der c3 ++ asn1_octet_string_to_der c2))) =
        some (SM9_ENC_TYPE_XOR,
          asn1_bit_octets_to_der (P.point_to_octets c1) ++
            (asn1_octet_string_to_der c3 ++ asn1_octet_string_to_der c2)) :=
      asn1_int_round_small 0 (by omega) _
    have e3 : asn1_bit_octets_from_der
        (asn1_bit_octets_to_der (P.point_to_octets c1) ++
          (asn1_octet_string_to_der c3 ++ asn1_octet_string_to_der c2)) =
        some (P.point_to_octets c1,
          asn1_octet_string_to_der c3 ++ asn1_octet_string_to_der c2) :=
      asn1_bit_octets_round _ (by rw [hc1l]; omega) _
    have e4 : asn1_octet_string_from_der
        (asn1_octet_string_to_der c3 ++ asn1_octet_string_to_der c2) =
        some (c3, asn1_octet_string_to_der c2) :=
      asn1_octet_string_round _ (by rw [hc3]; omega) _
    have e5 : asn1_octet_string_from_der (asn1_octet_string_to_der c2) =
        some (c2, []) := by
      have := asn1_octet_string_round c2
        (by unfold SM9_MAX_PLAINTEXT_SIZE at hc2; omega) []
      simpa using this
    unfold sm9_ciphertext_from_der
    simp [e1, e2, e3, e4, e5, hc1l, hc3, SM3_HMAC_SIZE, hc1r]
  · -- signature decoder rejects leftovers inside the SEQUENCE
    intro input d rest2 hb d1 sb d2 hseq hosd hbitd hne
    unfold sm9_signature_from_der
    simp only [hseq, hosd, hbitd]
    split_ifs <;> simp_all
  · -- ciphertext decoder rejects leftovers inside the SEQUENCE
    intro input d rest2 t d1 c1b d2 c3b d3 c2b d4 hseq hintd hbitd hos3 hos2 hne
    unfold sm9_ciphertext_from_der
    simp only [hseq, hintd, hbitd, hos3, hos2]
    split_ifs <;> simp_all

/-- Counterexample for claim C9 as stated: an input consisting of a valid
DER signature followed by one trailing byte is not rejected by
`sm9_signature_from_der`; the decoder succeeds and hands the trailing
byte back to the caller. -/
theorem claim_C9_counterexample :
    sm9_signature_from_der toyPrims
        (sm9_signature_to_der toyPrims ⟨2, 3⟩ ++ [0]) =
      some (⟨2, 3⟩, [0]) := by
  decide

/-- Witness for claim C9: the hypotheses hold for a concrete toy
signature and ciphertext and the two round-trip conclusions follow by
applying the claim theorem. -/
theorem claim_C9_witness :
    ((toyPrims.fn_to_bytes
        (SM9Signature.h (P := toyPrims) ⟨2, 3⟩)).length = 32
      ∧ toyPrims.fn_from_bytes (toyPrims.fn_to_bytes
          (SM9Signature.h (P := toyPrims) ⟨2, 3⟩)) = some 2
      ∧ (toyPrims.point_to_octets (2 : ZMod 5)).length = 65
      ∧ toyPrims.point_from_octets (toyPrims.point_to_octets (2 : ZMod 5)) =
          some 2
      ∧ (List.replicate 32 (1 : Nat)).length = 32
      ∧ ([7, 7] : List Nat).length ≤ SM9_MAX_PLAINTEXT_SIZE)
    ∧ sm9_signature_from_der toyPrims
        (sm9_signature_to_der toyPrims ⟨2, 3⟩ ++ [9]) = some (⟨2, 3⟩, [9])
    ∧ sm9_ciphertext_from_der toyPrims
        (sm9_ciphertext_to_der toyPrims 2 [7, 7] (List.replicate 32 1) ++ [9]) =
      some ((2, [7, 7], List.replicate 32 1), [9]) := by
  refine ⟨⟨by decide, by decide, by decide, by decide, by decide, by decide⟩,
    ?_, ?_⟩
  · exact (claim_C9_der_codec_roundtrip toyPrims ⟨2, 3⟩ 2 [7, 7]
      (List.replicate 32 1) [9] (by decide) (by decide) (by decide)
      (by decide) (by decide) (by decide) (by decide) (by decide)).1
  · exact (claim_C9_der_codec_roundtrip toyPrims ⟨2, 3⟩ 2 [7, 7]
      (List.replicate 32 1) [9] (by decide) (by decide) (by decide)
      (by decide) (by decide) (by decide) (by decide) (by decide)).2.1

/-! ## Claim C10: decryption length-query mode -/

/-- Claim C10: when `sm9_decrypt` is called with a NULL output pointer,
it succeeds and reports the parsed C2 length as soon as the DER
ciphertext parses with nothing after the SEQUENCE; the result is the same
for every key, so no key is derived and no HMAC tag is verified on this
path. -/
theorem claim_C10_decrypt_length_query (P : SM9Prims)
    (key1 key2 : SM9EncKey P) (id input : List Nat) (c1 : P.G1)
    (c2 c3 : List Nat)
    (hparse : sm9_ciphertext_from_der P input = some ((c1, c2, c3), [])) :
    sm9_decrypt P key1 id input true = some (c2.length, none)
    ∧ sm9_decrypt P key1 id input true = sm9_decrypt P key2 id input true := by
  unfold sm9_decrypt
  simp [hparse]

/-- Witness for claim C10 at a concrete DER ciphertext whose HMAC tag is
arbitrary (it would never pass MAC verification): the NULL-output call
still succeeds with the parsed C2 length, for two different keys. -/
theorem claim_C10_witness :
    (sm9_ciphertext_from_der toyPrims
        (sm9_ciphertext_to_der toyPrims 2 [7] (List.replicate 32 9)) =
      some ((2, [7], List.replicate 32 9), []))
    ∧ sm9_decrypt toyPrims ⟨3⟩ [52]
        (sm9_ciphertext_to_der toyPrims 2 [7] (List.replicate 32 9)) true =
      some (1, none)
    ∧ sm9_decrypt toyPrims ⟨3⟩ [52]
        (sm9_ciphertext_to_der toyPrims 2 [7] (List.replicate 32 9)) true =
      sm9_decrypt toyPrims ⟨4⟩ [52]
        (sm9_ciphertext_to_der toyPrims 2 [7] (List.replicate 32 9)) true := by
  refine ⟨by decide, ?_, ?_⟩
  · exact (claim_C10_decrypt_length_query toyPrims ⟨3⟩ ⟨4⟩ [52]
      (sm9_ciphertext_to_der toyPrims 2 [7] (List.replicate 32 9)) 2 [7]
      (List.replicate 32 9) (by decide)).1
  · exact (claim_C10_decrypt_length_query toyPrims ⟨3⟩ ⟨4⟩ [52]
      (sm9_ciphertext_to_der toyPrims 2 [7] (List.replicate 32 9)) 2 [7]
      (List.replicate 32 9) (by decide)).2

/-! ## Claim C1: sign/verify round trip -/

/-- Claim C1 evaluated at a failing execution: with the KGC-derived
signing key for the identity `[10]` and the message `[20]`, a signing run
whose first loop pass restarts on `l = 0` (draws `3` then `2`) produces
the signature `{h = 3, S = 4}`, and `sm9_do_verify` under the same master
public key, identity and message REJECTS it (returns 0), contradicting
the round-trip claim.  The restart left `g = g^r` and the finalized SM3
context in place, so the second pass no longer computes the standard
`w = e(Ppubs, P1)^r` and `H2(M || w)`. -/
theorem claim_C1_roundtrip_fails_after_restart :
    sm9_do_sign toyPrims (sm9_kgc_derive_sign toyPrims (1 : ZMod 5) [10])
        (sm9_sign_update toyPrims (sm9_sign_init toyPrims) [20])
        [(3 : ZMod 5), (2 : ZMod 5)] =
      some ⟨(3 : ZMod 5), (4 : ZMod 5)⟩
    ∧ sm9_do_verify toyPrims
        ⟨(sm9_kgc_derive_sign toyPrims (1 : ZMod 5) [10]).Ppubs⟩ [10]
        (sm9_sign_update toyPrims (sm9_sign_init toyPrims) [20])
        ⟨(3 : ZMod 5), (4 : ZMod 5)⟩ = 0 := by
  exact ⟨by decide, by decide⟩

/-! ## Claim C3: verification input validation -/

/-- Claim C3 evaluated at a failing input: `sm9_do_verify` performs no
range check on `h` and no on-curve check on `S` (the B1/B2 steps exist
only as comments in the source), so a signature with `h = 0` — outside
`[1, N-1]` — is not rejected with an error before the pairing test; on
this input the pairing-based comparison even ACCEPTS it (returns 1). -/
theorem claim_C3_verify_accepts_zero_h :
    sm9_do_verify toyPrims ⟨(4 : ZMod 5)⟩ [5]
        (sm9_sign_update toyPrims (sm9_sign_init toyPrims) [3])
        ⟨(0 : ZMod 5), (1 : ZMod 5)⟩ = 1 := by
  decide

/-! ## Claim C5: sign loop iteration semantics -/

/-- Claim C5 evaluated at a failing execution: in the signing run with
key derived for `[11]`, message `[21]` and draws `4` then `1`, the first
loop pass restarts (`l = 0`); in the second pass the value the code
absorbs as `w` is not `g^r` for the fresh draw `r = 1` and the fixed
`g = e(Ppubs, P1)`, and the resulting `h` differs from the H2 value
obtained by absorbing the prescribed `w = g^r` into a copy of the input
SM3 context; the signature `sm9_do_sign` returns is built from these
corrupted second-pass values. -/
theorem claim_C5_loop_state_corrupted :
    toyPrims.fn_is_zero c5s1.2.2.2 = true
    ∧ c5s2.1 ≠ toyPrims.fp12_pow c5g0 1
    ∧ c5s2.2.2.1 ≠ c5claimedH
    ∧ sm9_do_sign toyPrims (sm9_kgc_derive_sign toyPrims (2 : ZMod 5) [11])
        c5ctx [(4 : ZMod 5), (1 : ZMod 5)] =
      some ⟨c5s2.2.2.1, toyPrims.point_mul c5s2.2.2.2
        (sm9_kgc_derive_sign toyPrims (2 : ZMod 5) [11]).ds⟩ := by
  exact ⟨by decide, by decide, by decide, by decide⟩

/-! ## Claim C2: encrypt/decrypt round trip -/

set_option maxRecDepth 100000 in
/-- Claim C2 evaluated at a failing execution: with the KGC-derived
encryption key for `[52]`, encrypting the plaintext `[9]` in an execution
whose KEM loop restarts once (the first derived key is all-zero) succeeds,
but decrypting the produced ciphertext FAILS (the restarted loop left
`C1 = r2*(r1*Q)` while the key derivation used `w = g^r2`, so
decapsulation derives a different key and the HMAC tag mismatches) —
contradicting the round-trip claim.  In the same instance an execution
without a restart round-trips fine, isolating the failure to the restart
path. -/
theorem claim_C2_roundtrip_fails_after_restart :
    (sm9_encrypt toyPrimsC2 ⟨(2 : ZMod 5)⟩ [52] [9]
        [(2 : ZMod 5), (3 : ZMod 5)]).isSome = true
    ∧ (sm9_encrypt toyPrimsC2 ⟨(2 : ZMod 5)⟩ [52] [9]
        [(2 : ZMod 5), (3 : ZMod 5)]).bind
        (fun ct => sm9_decrypt toyPrimsC2
          (sm9_kgc_derive_enc toyPrimsC2 (2 : ZMod 5) [52]) [52] ct false) =
      none
    ∧ (sm9_encrypt toyPrimsC2 ⟨(2 : ZMod 5)⟩ [52] [9] [(3 : ZMod 5)]).bind
        (fun ct => sm9_decrypt toyPrimsC2
          (sm9_kgc_derive_enc toyPrimsC2 (2 : ZMod 5) [52]) [52] ct false) =
      some (1, some [9]) := by
  exact ⟨by decide, by decide, by decide⟩

/-! ## Claim C4: envelope key length -/

/-- Claim C4 (amended): `sm9_do_encrypt` runs KEM encapsulation with the
FIXED length `klen = SM9_MAX_PLAINTEXT_SIZE + 32` (the size of its local
`K` array), not `mlen + 32`, and splits the result as `K1` (the first
`mlen` bytes, XOR stream) and `K2` (the 32 bytes at offset `mlen`, HMAC
key); symmetrically `sm9_do_decrypt` runs KEM decapsulation with
`klen = SM9_MAX_PLAINTEXT_SIZE + 32`, not `c2len + 32`. -/
theorem claim_C4_envelope_klen (P : SM9Prims) :
    (∀ (mpk : SM9EncMasterKey P) (id input : List Nat) (draws : List P.Fn)
        (c1 : P.G1) (c2 c3 : List Nat),
      sm9_do_encrypt P mpk id input draws = some (c1, c2, c3) →
      ∃ k, sm9_kem_encrypt P mpk id (SM9_MAX_PLAINTEXT_SIZE + 32) draws =
            some (k, c1)
        ∧ c2 = gmssl_memxor k input
        ∧ c3 = P.sm3_hmac ((k.drop input.length).take SM3_HMAC_SIZE) c2)
    ∧ (∀ (key : SM9EncKey P) (id : List Nat) (c1 : P.G1) (c2 c3 m : List Nat),
      sm9_do_decrypt P key id c1 c2 c3 = some m →
      c2.length ≤ SM9_MAX_PLAINTEXT_SIZE
      ∧ ∃ k, sm9_kem_decrypt P key id c1 (SM9_MAX_PLAINTEXT_SIZE + 32) =
            some k
        ∧ c3 = P.sm3_hmac ((k.drop c2.length).take SM3_HMAC_SIZE) c2
        ∧ m = gmssl_memxor k c2) := by
  constructor
  · intro mpk id input draws c1 c2 c3 h
    unfold sm9_do_encrypt at h
    cases hk : sm9_kem_encrypt P mpk id (SM9_MAX_PLAINTEXT_SIZE + 32) draws with
    | none => rw [hk] at h; cases h
    | some kc =>
      obtain ⟨k, c1'⟩ := kc
      rw [hk] at h
      simp only [Option.some.injEq, Prod.mk.injEq] at h
      obtain ⟨h1, h2, h3⟩ := h
      subst h1; subst h2; subst h3
      exact ⟨k, rfl, rfl, rfl⟩
  · intro key id c1 c2 c3 m h
    unfold sm9_do_decrypt at h
    by_cases hlen : c2.length > SM9_MAX_PLAINTEXT_SIZE
    · rw [if_pos hlen] at h; cases h
    · rw [if_neg hlen] at h
      cases hk : sm9_kem_decrypt P key id c1 (SM9_MAX_PLAINTEXT_SIZE + 32) with
      | none => rw [hk] at h; cases h
      | some k =>
        rw [hk] at h
        simp only at h
        by_cases hmac :
            c3 = P.sm3_hmac ((k.drop c2.length).take SM3_HMAC_SIZE) c2
        · rw [if_pos hmac] at h
          simp only [Option.some.injEq] at h
          exact ⟨by omega, k, rfl, hmac, h.symm⟩
        · rw [if_neg hmac] at h; cases h

set_option maxRecDepth 400000 in
/-- Counterexample for claim C4 as stated: under a primitive layer whose
KDF has the counter-mode prefix property, running the envelope with the
spec's `klen = mlen + 32` (respectively `klen = c2len + 32`) gives a
DIFFERENT result than `sm9_do_encrypt` / `sm9_do_decrypt` do, because the
all-zero test `mem_is_zero(K, klen)` inspects a different number of bytes
and the restart behaviour diverges. -/
theorem claim_C4_counterexample :
    sm9_do_encrypt toyPrimsC4 ⟨(2 : ZMod 5)⟩ [52] [9]
        [(2 : ZMod 5), (3 : ZMod 5)] ≠
      sm9_do_encrypt_specklen toyPrimsC4 ⟨(2 : ZMod 5)⟩ [52] [9]
        [(2 : ZMod 5), (3 : ZMod 5)]
    ∧ sm9_do_decrypt toyPrimsC4
        (sm9_kgc_derive_enc toyPrimsC4 (2 : ZMod 5) [52]) [52] (2 : ZMod 5)
        [7] ((List.range 32).map (fun i => (248 + i) % 256)) ≠
      sm9_do_decrypt_specklen toyPrimsC4
        (sm9_kgc_derive_enc toyPrimsC4 (2 : ZMod 5) [52]) [52] (2 : ZMod 5)
        [7] ((List.range 32).map (fun i => (248 + i) % 256)) := by
  exact ⟨by decide, by decide⟩

set_option maxRecDepth 400000 in
/-- Witness for claim C4: a successful concrete encryption and a
successful concrete decryption, with the amended decomposition obtained
by applying the claim theorem. -/
theorem claim_C4_witness :
    (sm9_do_encrypt toyPrims ⟨(2 : ZMod 5)⟩ [52] [9] [(2 : ZMod 5)] =
        some ((2 : ZMod 5), [120], (List.range 32).map (fun i => 66 + i)))
    ∧ (∃ k, sm9_kem_encrypt toyPrims ⟨(2 : ZMod 5)⟩ [52]
          (SM9_MAX_PLAINTEXT_SIZE + 32) [(2 : ZMod 5)] =
            some (k, (2 : ZMod 5))
        ∧ [120] = gmssl_memxor k [9]
        ∧ (List.range 32).map (fun i => 66 + i) =
            toyPrims.sm3_hmac
              ((k.drop ([9] : List Nat).length).take SM3_HMAC_SIZE) [120])
    ∧ (sm9_do_decrypt toyPrims ⟨(3 : ZMod 5)⟩ [52] (2 : ZMod 5) [7]
          ((List.range 32).map (fun i => 18 + i)) = some [19])
    ∧ (([7] : List Nat).length ≤ SM9_MAX_PLAINTEXT_SIZE
        ∧ ∃ k, sm9_kem_decrypt toyPrims ⟨(3 : ZMod 5)⟩ [52] (2 : ZMod 5)
              (SM9_MAX_PLAINTEXT_SIZE + 32) = some k
          ∧ (List.range 32).map (fun i => 18 + i) =
              toyPrims.sm3_hmac
                ((k.drop ([7] : List Nat).length).take SM3_HMAC_SIZE) [7]
          ∧ [19] = gmssl_memxor k [7]) := by
  refine ⟨by decide, ?_, by decide, ?_⟩
  · exact (claim_C4_envelope_klen toyPrims).1 ⟨(2 : ZMod 5)⟩ [52] [9]
      [(2 : ZMod 5)] (2 : ZMod 5) [120]
      ((List.range 32).map (fun i => 66 + i)) (by decide)
  · exact (claim_C4_envelope_klen toyPrims).2 ⟨(3 : ZMod 5)⟩ [52]
      (2 : ZMod 5) [7] ((List.range 32).map (fun i => 18 + i)) [19]
      (by decide)

/-! ## Claim C6: key-exchange step 2A on a zero session key -/

/-- Claim C6 evaluated on a primitive layer whose KDF output is all-zero:
`sm9_exch_step_2A` never aborts with a key-zero failure — its
do-while-SK-zero loop recomputes the same session key from
the same fixed inputs and restarts forever, exhausting every iteration
budget, contradicting the claim that it aborts without looping. -/
theorem claim_C6_step2A_loops_forever_on_zero_key :
    ∀ fuel, sm9_exch_step_2A toyPrimsZeroKdf ⟨(2 : ZMod 5)⟩ [1] [2]
        ⟨(3 : ZMod 5)⟩ (1 : ZMod 5) (1 : ZMod 5) (1 : ZMod 5) 16 fuel =
      .error .loopLimit := by
  intro fuel
  induction fuel with
  | zero => rfl
  | succ n ih =>
    have hstep : sm9_exch_step_2A toyPrimsZeroKdf ⟨(2 : ZMod 5)⟩ [1] [2]
        ⟨(3 : ZMod 5)⟩ (1 : ZMod 5) (1 : ZMod 5) (1 : ZMod 5) 16 (n + 1) =
        sm9_exch_step_2A toyPrimsZeroKdf ⟨(2 : ZMod 5)⟩ [1] [2]
        ⟨(3 : ZMod 5)⟩ (1 : ZMod 5) (1 : ZMod 5) (1 : ZMod 5) 16 n := rfl
    rw [hstep]
    exact ih

/-! ## Claim C7: key-exchange randomness -/

/-- Claim C7 refuted structurally: for EVERY primitive layer, the outputs
of `sm9_exch_step_1A` and `sm9_exch_step_1B` do not depend on the random
draw — the drawn scalar is overwritten by the hardcoded test-vector
constant (`sm9_z256_from_hex` right after `sm9_z256_fn_rand`), so two
executions with different draw outcomes produce identical outputs,
contradicting the claim that the used scalar is the drawn value and that
outputs vary with the draw. -/
theorem claim_C7_exchange_ignores_random_draw :
    (∀ (P : SM9Prims) (mpk : SM9ExchMasterKey P) (idB : List Nat)
        (d1 d2 : P.Fn),
      sm9_exch_step_1A P mpk idB d1 = sm9_exch_step_1A P mpk idB d2)
    ∧ (∀ (P : SM9Prims) (mpk : SM9ExchMasterKey P) (idA idB : List Nat)
        (key : SM9ExchKey P) (ra : P.G1) (klen : Nat) (d1 d2 : P.Fn),
      sm9_exch_step_1B P mpk idA idB key ra klen [d1] =
        sm9_exch_step_1B P mpk idA idB key ra klen [d2]) := by
  constructor
  · intro P mpk idB d1 d2
    rfl
  · intro P mpk idA idB key ra klen d1 d2
    rfl

/-! ## Soundness of the non-restart paths

The two theorems below are not claim theorems; they show that the
embedding supports the intended correctness arguments on executions whose
rejection-resample loop exits on its first pass, for every primitive
layer satisfying the bilinearity laws the algorithms rely on.  Together
with the claim theorems above they isolate the round-trip failures to the
restart path. -/

/-- When the signing loop succeeds on its first pass (single draw) with a
KGC-consistent key, the verifier accepts, for every primitive layer in
which the pairing is bilinear in the stated forms. -/
theorem sm9_sign_verify_sound_without_restart (P : SM9Prims)
    (hpowmul : ∀ (a : P.G2) (l : P.Fn) (b : P.G1),
      P.pairing a (P.point_mul l b) = P.fp12_pow (P.pairing a b) l)
    (hmulpow : ∀ (g : P.GT) (a b : P.Fn),
      P.fp12_mul (P.fp12_pow g a) (P.fp12_pow g b) =
        P.fp12_pow g (P.fn_add a b))
    (hsubadd : ∀ a b : P.Fn, P.fn_add (P.fn_sub a b) b = a)
    (hequ : ∀ x : P.Fn, P.fn_equ x x = true)
    (key : SM9SignKey P) (id : List Nat)
    (hkey : P.pairing
        (P.twist_add (P.twist_mul_gen (P.hash1 id SM9_HID_SIGN)) key.Ppubs)
        key.ds = P.pairing key.Ppubs P.P1)
    (ctx : P.Ctx) (r : P.Fn) (sig : SM9Signature P)
    (hsig : sm9_do_sign P key ctx [r] = some sig) :
    sm9_do_verify P ⟨key.Ppubs⟩ id ctx sig = 1 := by
  unfold sm9_do_sign sm9_do_sign_loop at hsig
  by_cases hz :
      P.fn_is_zero (sm9_sign_iteration P (P.pairing key.Ppubs P.P1) ctx r).2.2.2
  · rw [if_pos hz] at hsig
    cases hsig
  · rw [if_neg hz] at hsig
    simp only [Option.some.injEq] at hsig
    subst hsig
    unfold sm9_do_verify sm9_sign_iteration
    simp only [hpowmul, hkey, hmulpow, hsubadd, hequ]
    simp

/-- When the KEM encapsulation loop succeeds on its first pass (single
draw) with a KGC-consistent decapsulation key, decapsulation on the
transmitted point reproduces the same key bytes. -/
theorem sm9_kem_consistent_without_restart (P : SM9Prims)
    (hpowmul : ∀ (a : P.G2) (l : P.Fn) (b : P.G1),
      P.pairing a (P.point_mul l b) = P.fp12_pow (P.pairing a b) l)
    (mpk : SM9EncMasterKey P) (key : SM9EncKey P) (id : List Nat)
    (hkey : P.pairing key.de
        (P.point_add (P.point_mul (P.hash1 id SM9_HID_ENC) P.P1) mpk.Ppube) =
      P.pairing P.P2 mpk.Ppube)
    (klen : Nat) (r : P.Fn) (k : List Nat) (c : P.G1)
    (henc : sm9_kem_encrypt P mpk id klen [r] = some (k, c)) :
    sm9_kem_decrypt P key id c klen = some k := by
  unfold sm9_kem_encrypt sm9_kem_encrypt_loop at henc
  by_cases hz : mem_is_zero (P.kdf
      ((P.point_to_octets (P.point_mul r
          (P.point_add (P.point_mul (P.hash1 id SM9_HID_ENC) P.P1)
            mpk.Ppube))).drop 1 ++
        P.fp12_to_bytes (P.fp12_pow (P.pairing P.P2 mpk.Ppube) r) ++ id) klen)
  · rw [if_pos hz] at henc
    cases henc
  · rw [if_neg hz] at henc
    simp only [Option.some.injEq, Prod.mk.injEq] at henc
    obtain ⟨hk, hc⟩ := henc
    subst hc
    unfold sm9_kem_decrypt
    rw [hpowmul, hkey]
    rw [if_neg (by exact hk ▸ hz)]
    rw [hk]
